import Mathlib

/-!
Verification development for the furigana-plus annotation engine.

The repository annotates Japanese text on web pages with furigana (phonetic
readings) and can undo its own DOM mutations.  This file gives a shallow
embedding of the parts of the program the frozen claims talk about:

* a DOM model (`Node`) with text nodes, engine-authored ruby nodes and
  elements;
* the annotation renderer: `applyAt` / `undoRecord` over a child list,
  producing an `AnnotRecord` (spec section 4.4);
* the selector rule engine and span extractor over trees (spec sections
  4.1 and 4.2);
* the cancellation model of in-flight tokenizer results (spec section 5);
* batch failure handling of the tokenizer client (spec section 4.3);
* the error-containment boundary (spec section 7);
* the tokenizer HTTP boundary, embedded from the background message
  handler source;
* the onInstalled storage initializer, embedded from its source;
* the popup config reducer, embedded from its source.
-/

namespace FuriganaPlus

/-- DOM model.  A node is a text node (with a stable identity used by the
ProcessedRegistry), an engine-authored ruby node (base text plus attached
reading), or an element with a tag and children. -/
inductive Node where
  | text (id : Nat) (data : String)
  | ruby (id : Nat) (base : String) (reading : String)
  | element (tag : String) (children : List Node)

mutual

/-- The character data a reader sees for one node: ruby keeps the original
base text, elements concatenate their children in order. -/
def nodeText : Node → String
  | .text _ s => s
  | .ruby _ b _ => b
  | .element _ kids => kidsText kids

/-- Concatenated character data of a list of sibling nodes, in order. -/
def kidsText : List Node → String
  | [] => ""
  | k :: ks => nodeText k ++ kidsText ks

end

/-- Character data of a whole child list. -/
def domText (l : List Node) : String := kidsText l

/-- A tokenizer token: surface form, optional reading (none for non-kanji
or untranslatable surfaces, which are left unmodified), part of speech. -/
structure Token where
  surface : String
  reading : Option String
  partOfSpeech : String
deriving DecidableEq

/-- Modelled from the spec: the renderer (section 4.4) turns one token into
one markup unit — a ruby node when the token has a reading, the verbatim
surface text otherwise. -/
def renderToken (t : Token) : Node :=
  match t.reading with
  | some r => .ruby 0 t.surface r
  | none => .text 0 t.surface

/-- AnnotRecord: where in the parent child list the replacement happened,
the owned copy of the original node sequence, and how many nodes were
inserted in its place (the tracking reference to the inserted nodes). -/
structure AnnotRecord where
  pos : Nat
  originalFragment : List Node
  insertedLen : Nat

/-- Modelled from the spec: `apply(span, tokens)` (section 4.4).  The span
occupies `len` nodes starting at index `i` of a parent child list; the
renderer replaces them with the rendered tokens as one atomic splice and
records the original fragment for undo. -/
def applyAt (children : List Node) (i len : Nat) (tokens : List Token) :
    List Node × AnnotRecord :=
  let inserted := tokens.map renderToken
  (children.take i ++ inserted ++ children.drop (i + len),
   ⟨i, (children.drop i).take len, inserted.length⟩)

/-- Modelled from the spec: `undo(record)` (section 4.4) detaches all
inserted nodes and reinserts the original fragment at the same position. -/
def undoRecord (children : List Node) (r : AnnotRecord) : List Node :=
  children.take r.pos ++ r.originalFragment ++ children.drop (r.pos + r.insertedLen)

/-- Kind of a selector rule: include or exclude (spec section 3). -/
inductive RuleKind where
  | inc
  | exc
deriving DecidableEq

/-- Modelled from the spec: a SelectorRule (section 3), an element-matching
pattern together with its kind.  A pattern matches an element whose tag
equals the selector (the executable instance of the element-matching
predicate used throughout this file). -/
structure SelectorRule where
  selector : String
  kind : RuleKind
deriving DecidableEq

/-- An element tag is excluded when some rule of the list matches it with
kind exclude.  Per spec section 3, exclude rules always take precedence
over include rules for the same element, so the test is order-independent
membership, and per section 4.1 an exclude match stops descent (the veto
semantics the spec adopts). -/
def excludedBy (rules : List SelectorRule) (tag : String) : Bool :=
  rules.any (fun r => decide (r.selector = tag ∧ r.kind = RuleKind.exc))

/-- Fast Unicode-block test for a kanji character (CJK unified ideographs),
spec section 4.2. -/
def isKanji (c : Char) : Bool :=
  decide (0x4E00 ≤ c.toNat ∧ c.toNat ≤ 0x9FFF)

/-- A string bears kanji when some character passes the block test. -/
def hasKanji (s : String) : Bool := s.data.any isKanji

mutual

/-- Modelled from the spec: one annotation pass of the engine (sections
4.1 and 4.2 plus the renderer).  `rd` is the reading the tokenizer would
attach to a run, `reg` is the ProcessedRegistry.  A text node already in
the registry, or without kanji, is left alone; an eligible kanji-bearing
text node becomes a ruby node keeping its identity; engine-authored ruby
nodes are never reprocessed; an excluded element vetoes its whole subtree
(descent stops), any other element keeps its tag and recurses. -/
def annotateNode (rules : List SelectorRule) (rd : String → String)
    (reg : List Nat) : Node → Node
  | .text id s =>
      if id ∈ reg then .text id s
      else if hasKanji s then .ruby id s (rd s)
      else .text id s
  | .ruby id b r => .ruby id b r
  | .element tag kids =>
      if excludedBy rules tag then .element tag kids
      else .element tag (annotateKids rules rd reg kids)

/-- One annotation pass over a list of sibling nodes, in order. -/
def annotateKids (rules : List SelectorRule) (rd : String → String)
    (reg : List Nat) : List Node → List Node
  | [] => []
  | k :: ks => annotateNode rules rd reg k :: annotateKids rules rd reg ks

end

mutual

/-- Modelled from the spec: `extract` (section 4.2).  Spans are the
kanji-bearing text nodes not yet in the ProcessedRegistry; extraction
never descends into an excluded subtree, skips engine-authored nodes, and
discards runs with zero kanji. -/
def extractSpans (rules : List SelectorRule) (reg : List Nat) :
    Node → List (Nat × String)
  | .text id s =>
      if id ∈ reg then []
      else if hasKanji s then [(id, s)]
      else []
  | .ruby _ _ _ => []
  | .element tag kids =>
      if excludedBy rules tag then []
      else extractKids rules reg kids

/-- Extraction over a list of sibling nodes, in order. -/
def extractKids (rules : List SelectorRule) (reg : List Nat) :
    List Node → List (Nat × String)
  | [] => []
  | k :: ks => extractSpans rules reg k ++ extractKids rules reg ks

end

mutual

/-- All subtrees of a node whose root element carries the given tag, in
document order (used to state that everything inside such elements is
untouched). -/
def subtreesWithTag (tag : String) : Node → List Node
  | .text _ _ => []
  | .ruby _ _ _ => []
  | .element tg kids =>
      (if tg = tag then [Node.element tg kids] else []) ++ subtreesKids tag kids

/-- Subtrees with the given tag inside a list of sibling nodes. -/
def subtreesKids (tag : String) : List Node → List Node
  | [] => []
  | k :: ks => subtreesWithTag tag k ++ subtreesKids tag ks

end

/-- A resolved tokenizer result still pending application: which slice of
the parent child list the span occupied and the tokens that came back. -/
structure PendingResult where
  pos : Nat
  len : Nat
  tokens : List Token

/-- Modelled from the spec: EngineState (sections 3 and 5) — one instance
per page context, holding the cancellation token and the document (the
child list the renderer mutates). -/
structure EngineState where
  cancelled : Bool
  dom : List Node

/-- Modelled from the spec: deactivation invalidates the cancellation
token tied to the EngineState (section 5). -/
def deactivate (st : EngineState) : EngineState :=
  { st with cancelled := true }

/-- Modelled from the spec: applying one resolved tokenizer result
(section 5).  The cancellation token is checked before the result is
applied; a cancelled result is discarded even though the network call
completed, otherwise the renderer splices the rendered tokens in. -/
def applyPending (st : EngineState) (r : PendingResult) : EngineState :=
  if st.cancelled then st
  else { st with dom := (applyAt st.dom r.pos r.len r.tokens).1 }

/-- Resolution of a list of in-flight results, in arrival order. -/
def resolveAll (st : EngineState) (rs : List PendingResult) : EngineState :=
  rs.foldl applyPending st

/-- Outcome of one tokenizer network call for a batch: a network error, or
a response with an HTTP status and a body — `none` when the body is not
the expected JSON shape, otherwise the token lists obtained by splitting
at the batch separator. -/
inductive BatchOutcome where
  | netError
  | response (status : Nat) (body : Option (List (List Token)))
deriving DecidableEq

/-- A tokenizer batch: the spans concatenated into the request (by id) and
what the network call produced. -/
structure Batch where
  spanIds : List Nat
  outcome : BatchOutcome
deriving DecidableEq

/-- Status a span ends up with after its batch is handled. -/
inductive SpanStatus where
  | annotated
  | failed
deriving DecidableEq

/-- Modelled from the spec: a batch fails on network error, non-2xx
status, malformed JSON, or token count mismatch against the expected
separator count (section 4.3). -/
def batchFailed (b : Batch) : Bool :=
  match b.outcome with
  | .netError => true
  | .response status body =>
      if status < 200 ∨ 300 ≤ status then true
      else
        match body with
        | none => true
        | some ls => decide (ls.length ≠ b.spanIds.length)

/-- Modelled from the spec: handling of one batch (section 4.3) — on
failure every affected span is marked failed and skipped, otherwise every
span is annotated. -/
def processBatch (b : Batch) : List (Nat × SpanStatus) :=
  if batchFailed b then b.spanIds.map (fun s => (s, SpanStatus.failed))
  else b.spanIds.map (fun s => (s, SpanStatus.annotated))

/-- Modelled from the spec: batches are handled independently, so the
statuses of a run are the concatenation of the per-batch statuses. -/
def processBatches (bs : List Batch) : List (Nat × SpanStatus) :=
  (bs.map processBatch).flatten

/-- The error taxonomy of the subsystem (spec section 7). -/
inductive AnnotError where
  | ruleParseError
  | netError
  | malformedResponse
  | tokenCountMismatch
  | staleTarget
  | undoConflict
deriving DecidableEq

/-- Modelled from the spec: the containment boundary (section 7).  Every
step of a pass either succeeds with a value or fails with a subsystem
error; the boundary is a total function that collects successes and turns
every error into a logged warning — no error escapes it. -/
def runContained {α : Type} (steps : List (Except AnnotError α)) :
    List α × List AnnotError :=
  steps.foldr
    (fun s acc =>
      match s with
      | .ok a => (a :: acc.1, acc.2)
      | .error e => (acc.1, e :: acc.2))
    ([], [])

/-- A JSON value, for the tokenizer HTTP boundary. -/
inductive Json where
  | jnull
  | jbool (b : Bool)
  | jnum (n : Int)
  | jstr (s : String)
  | jarr (elems : List Json)
  | jobj (fields : List (String × Json))

/-- One tokenizer token as it crosses the HTTP boundary.  The `MojiToken`
type itself lives in a module outside the given sources; its field shape
is the one of spec section 6: surface, reading (empty for non-kanji
tokens) and part of speech, all strings. -/
structure MojiToken where
  surface : String
  reading : String
  partOfSpeech : String
deriving DecidableEq

/-- The request options the background handler builds (method, the one
header it sets, and the JSON body). -/
structure RequestOptions where
  method : String
  contentTypeHeader : String
  body : Json

/-- The request the background message handler sends for input text `t`:
a POST with content type application/json and body `{ text: t }`
(embedded from the fetch options the handler source constructs). -/
def tokenizerRequest (text : String) : RequestOptions :=
  { method := "POST"
    contentTypeHeader := "application/json"
    body := Json.jobj [("text", Json.jstr text)] }

/-- JSON shape of one token object, `{ surface, reading, partOfSpeech }`. -/
def encodeToken (t : MojiToken) : Json :=
  Json.jobj
    [("surface", Json.jstr t.surface),
     ("reading", Json.jstr t.reading),
     ("partOfSpeech", Json.jstr t.partOfSpeech)]

/-- Reading one response element as a token object. -/
def decodeToken : Json → Option MojiToken
  | Json.jobj
      [("surface", Json.jstr s),
       ("reading", Json.jstr r),
       ("partOfSpeech", Json.jstr p)] => some ⟨s, r, p⟩
  | _ => none

/-- Reading a list of response elements as token objects. -/
def decodeTokenList : List Json → Option (List MojiToken)
  | [] => some []
  | j :: rest =>
      match decodeToken j, decodeTokenList rest with
      | some t, some ts => some (t :: ts)
      | _, _ => none

/-- How the handler consumes `response.json()`: as a JSON array of
`{ surface, reading, partOfSpeech }` token objects (the `MojiToken[]`
type at which the handler reads the parsed body). -/
def decodeResponse : Json → Option (List MojiToken)
  | Json.jarr elems => decodeTokenList elems
  | _ => none

namespace Installer

/-- A value kept in extension storage.  `jrules` holds a selector rule
list (the shape of the selector rules asset). -/
inductive JVal where
  | jnull
  | jbool (b : Bool)
  | jnum (n : Int)
  | jstr (s : String)
  | jrules (rs : List SelectorRule)
deriving DecidableEq

/-- JavaScript truthiness of a `storage.getItem` result, as the guard
`if (!oldConfig)` of the source sees it: a missing key reads as null;
null, false, 0 and the empty string are falsy, everything else truthy. -/
def truthy : Option JVal → Bool
  | none => false
  | some JVal.jnull => false
  | some (JVal.jbool b) => b
  | some (JVal.jnum n) => decide (n ≠ 0)
  | some (JVal.jstr s) => decide (s ≠ "")
  | some (JVal.jrules _) => true

/-- Extension storage: an association list from keys to stored values. -/
def Storage := List (String × JVal)

/-- The `storage.getItem` call: the value at a key, none when absent. -/
def getItem (st : Storage) (k : String) : Option JVal :=
  match st with
  | [] => none
  | (k', v) :: rest => if k' = k then some v else getItem rest k

/-- The `storage.setItem` call: overwrite the value at a key, appending
when the key is new. -/
def setItem (st : Storage) (k : String) (v : JVal) : Storage :=
  match st with
  | [] => [(k, v)]
  | (k', v') :: rest =>
      if k' = k then (k, v) :: rest else (k', v') :: setItem rest k v

/-- The `defaultConfig` object of the onInstalled handler source: auto
mode on, kanji filter off, display always, hiragana, original select
mode, font size 75, currentColor. -/
def defaultConfig : List (String × JVal) :=
  [("autoMode", JVal.jbool true),
   ("kanjiFilter", JVal.jbool false),
   ("displayMode", JVal.jstr "always"),
   ("furiganaType", JVal.jstr "hiragana"),
   ("selectMode", JVal.jstr "original"),
   ("fontSize", JVal.jnum 75),
   ("fontColor", JVal.jstr "currentColor")]

/-- One turn of the config loop of the handler source:
`if (!oldConfig) setItem(key, defaultConfig[key])`. -/
def initStep (st : Storage) (kv : String × JVal) : Storage :=
  if truthy (getItem st kv.1) then st else setItem st kv.1 kv.2

/-- The storage key of the selector rules. -/
def selectorRulesKey : String := "selectorRules"

/-- The built-in default selector rule set: excludes script, style, input
and contenteditable regions; everything else is included by the root
default (spec section 6; the shipped selector rules asset is outside the
given sources). -/
def builtinDefaultRules : List SelectorRule :=
  [⟨"script", RuleKind.exc⟩,
   ⟨"style", RuleKind.exc⟩,
   ⟨"input", RuleKind.exc⟩,
   ⟨"[contenteditable]", RuleKind.exc⟩]

/-- The stored form of the default selector rules asset. -/
def defaultSelectorRules : JVal := JVal.jrules builtinDefaultRules

/-- The storage effect of the onInstalled listener (embedded from the
handler source): run the config loop over `defaultConfig`, then store the
default selector rules when the stored value is falsy. -/
def installHandler (st : Storage) : Storage :=
  let st1 := defaultConfig.foldl initStep st
  if truthy (getItem st1 selectorRulesKey) then st1
  else setItem st1 selectorRulesKey defaultSelectorRules

/-- What the rule loader finds in storage at activation: nothing, an
unparsable value, or a parsed rule list. -/
inductive StoredRules where
  | absent
  | malformed
  | valid (rs : List SelectorRule)

/-- Modelled from the spec: rule loading at activation (sections 4.1 and
6) lives outside the given sources; absence or parse failure falls back
to the built-in default rule set, a parsed list is used as is. -/
def loadRules : StoredRules → List SelectorRule
  | .absent => builtinDefaultRules
  | .malformed => builtinDefaultRules
  | .valid rs => rs

end Installer

namespace Popup

/-- The three furigana types of the popup source. -/
inductive FuriganaType where
  | hiragana
  | katakana
  | romaji
deriving DecidableEq

/-- The two select modes of the popup source. -/
inductive SelectMode where
  | original
  | furigana
deriving DecidableEq

/-- The popup `Config` state: the six configuration fields the reducer
manages. -/
structure Config where
  display : Bool
  hoverMode : Bool
  furiganaType : FuriganaType
  selectMode : SelectMode
  fontSize : Int
  fontColor : String
deriving DecidableEq

/-- The `ACTIONTYPE` union of the popup source: one constructor per
extension event, carrying its payload. -/
inductive ACTIONTYPE where
  | toggleDisplay (payload : Bool)
  | toggleHoverMode (payload : Bool)
  | switchFuriganaType (payload : FuriganaType)
  | switchSelectMode (payload : SelectMode)
  | adjustFontSize (payload : Int)
  | adjustFontColor (payload : String)

/-- The state returned by the popup `reducer` (embedded from its switch
statement).  The fire-and-forget `sendMessage` call inside the source
reducer persists the payload and notifies the active tab; it does not
touch the returned state, which is the subject of the claims. -/
def reducer (state : Config) (action : ACTIONTYPE) : Config :=
  match action with
  | .toggleDisplay p => { state with display := p }
  | .toggleHoverMode p => { state with hoverMode := p }
  | .switchFuriganaType p => { state with furiganaType := p }
  | .switchSelectMode p => { state with selectMode := p }
  | .adjustFontSize p => { state with fontSize := p }
  | .adjustFontColor p => { state with fontColor := p }

end Popup

/-! ## Theorems -/

/-- Undo after apply restores the parent child list exactly, whatever the
tokens rendered, provided the spliced range was inside the list. -/
theorem undoRecord_applyAt (children : List Node) (i len : Nat)
    (tokens : List Token) (h : i + len ≤ children.length) :
    undoRecord (applyAt children i len tokens).1 (applyAt children i len tokens).2
      = children := by
  have hi : i ≤ children.length := Nat.le_trans (Nat.le_add_right i len) h
  have hA : (children.take i).length = i := by
    simp [List.length_take, Nat.min_eq_left hi]
  have hAI : (children.take i ++ tokens.map renderToken).length
      = i + (tokens.map renderToken).length := by
    simp [hA]
  simp only [applyAt, undoRecord]
  rw [List.drop_left' hAI, List.append_assoc,
    List.append_assoc (children.take i) (tokens.map renderToken)
      (children.drop (i + len)),
    List.take_left' hA, ← List.drop_drop, List.take_append_drop,
    List.take_append_drop]

/-- C1: for every span whose nodes receive no external mutation between
application and undo (the child list handed to `undoRecord` is exactly
the one `applyAt` produced), undoing the AnnotRecord produced by
`applyAt` restores character-for-character identical text content and
node order to the pre-annotation state. -/
theorem claim_c1_undo_apply_roundtrip (children : List Node) (i len : Nat)
    (tokens : List Token) (h : i + len ≤ children.length) :
    undoRecord (applyAt children i len tokens).1 (applyAt children i len tokens).2
        = children
      ∧ domText (undoRecord (applyAt children i len tokens).1
          (applyAt children i len tokens).2) = domText children := by
  have h1 := undoRecord_applyAt children i len tokens h
  exact ⟨h1, by rw [h1]⟩

/-- Witness for C1: the concrete scenario of spec section 8, a single
text node `今日は学校に行く` replaced by five rendered tokens and then
undone. -/
theorem claim_c1_witness :
    0 + 1 ≤ ([Node.text 1 "今日は学校に行く"] : List Node).length
      ∧ (undoRecord
            (applyAt [Node.text 1 "今日は学校に行く"] 0 1
              [⟨"今日", some "きょう", "noun"⟩, ⟨"は", none, "particle"⟩,
               ⟨"学校", some "がっこう", "noun"⟩, ⟨"に", none, "particle"⟩,
               ⟨"行く", some "いく", "verb"⟩]).1
            (applyAt [Node.text 1 "今日は学校に行く"] 0 1
              [⟨"今日", some "きょう", "noun"⟩, ⟨"は", none, "particle"⟩,
               ⟨"学校", some "がっこう", "noun"⟩, ⟨"に", none, "particle"⟩,
               ⟨"行く", some "いく", "verb"⟩]).2
          = [Node.text 1 "今日は学校に行く"]
        ∧ domText (undoRecord
            (applyAt [Node.text 1 "今日は学校に行く"] 0 1
              [⟨"今日", some "きょう", "noun"⟩, ⟨"は", none, "particle"⟩,
               ⟨"学校", some "がっこう", "noun"⟩, ⟨"に", none, "particle"⟩,
               ⟨"行く", some "いく", "verb"⟩]).1
            (applyAt [Node.text 1 "今日は学校に行く"] 0 1
              [⟨"今日", some "きょう", "noun"⟩, ⟨"は", none, "particle"⟩,
               ⟨"学校", some "がっこう", "noun"⟩, ⟨"に", none, "particle"⟩,
               ⟨"行く", some "いく", "verb"⟩]).2)
          = domText [Node.text 1 "今日は学校に行く"]) :=
  ⟨by decide,
   claim_c1_undo_apply_roundtrip [Node.text 1 "今日は学校に行く"] 0 1
     [⟨"今日", some "きょう", "noun"⟩, ⟨"は", none, "particle"⟩,
      ⟨"学校", some "がっこう", "noun"⟩, ⟨"に", none, "particle"⟩,
      ⟨"行く", some "いく", "verb"⟩] (by decide)⟩

/-- The any-test over a list is invariant under permutation. -/
theorem any_perm {α : Type} {l' l : List α} (hp : List.Perm l' l)
    (p : α → Bool) : l'.any p = l.any p := by
  rw [Bool.eq_iff_iff]
  simp only [List.any_eq_true]
  exact ⟨fun ⟨x, hx, hpx⟩ => ⟨x, hp.mem_iff.mp hx, hpx⟩,
         fun ⟨x, hx, hpx⟩ => ⟨x, hp.mem_iff.mpr hx, hpx⟩⟩

/-- Exclusion does not depend on the order of the rule list. -/
theorem excludedBy_perm {rules' rules : List SelectorRule}
    (hp : List.Perm rules' rules) (tag : String) :
    excludedBy rules' tag = excludedBy rules tag :=
  any_perm hp _

mutual

/-- Every subtree rooted at an element with an excluded tag survives an
annotation pass untouched. -/
theorem subtrees_annotate_of_excluded (rules : List SelectorRule)
    (rd : String → String) (reg : List Nat) (tag : String)
    (hex : excludedBy rules tag = true) :
    (n : Node) →
      subtreesWithTag tag (annotateNode rules rd reg n) = subtreesWithTag tag n
  | .text id s => by
      simp only [annotateNode]
      split
      · rfl
      · split <;> simp [subtreesWithTag]
  | .ruby id b r => by simp [annotateNode]
  | .element tg kids => by
      simp only [annotateNode]
      split
      · rfl
      · rename_i hnotex
        have htg : tg ≠ tag := fun he => hnotex (he ▸ hex)
        simp only [subtreesWithTag, if_neg htg]
        rw [subtrees_annotateKids_of_excluded rules rd reg tag hex kids]

/-- List version of `subtrees_annotate_of_excluded`. -/
theorem subtrees_annotateKids_of_excluded (rules : List SelectorRule)
    (rd : String → String) (reg : List Nat) (tag : String)
    (hex : excludedBy rules tag = true) :
    (l : List Node) →
      subtreesKids tag (annotateKids rules rd reg l) = subtreesKids tag l
  | [] => by simp [annotateKids]
  | k :: ks => by
      simp only [annotateKids, subtreesKids]
      rw [subtrees_annotate_of_excluded rules rd reg tag hex k,
        subtrees_annotateKids_of_excluded rules rd reg tag hex ks]

end

/-- C2: for every element matched by an exclude rule, and for any
ordering of the rule list (any permutation `rules'` of a list `rules` in
which the exclude match is found), no node and hence no text inside that
element or any of its descendants is mutated by an annotation pass: all
subtrees rooted at such elements are equal before and after. -/
theorem claim_c2_exclusion (rules rules' : List SelectorRule)
    (rd : String → String) (reg : List Nat) (tag : String) (n : Node)
    (hperm : List.Perm rules' rules)
    (hex : excludedBy rules tag = true) :
    subtreesWithTag tag (annotateNode rules' rd reg n) = subtreesWithTag tag n := by
  have hex' : excludedBy rules' tag = true := by
    rw [excludedBy_perm hperm]
    exact hex
  exact subtrees_annotate_of_excluded rules' rd reg tag hex' n

/-- Witness for C2: a textarea matched by an exclude rule keeps its kanji
text through a pass, also when the rule list is reordered so the include
rule comes first. -/
theorem claim_c2_witness :
    List.Perm
        [(⟨"p", RuleKind.inc⟩ : SelectorRule), ⟨"textarea", RuleKind.exc⟩]
        [(⟨"textarea", RuleKind.exc⟩ : SelectorRule), ⟨"p", RuleKind.inc⟩]
      ∧ excludedBy
          [(⟨"textarea", RuleKind.exc⟩ : SelectorRule), ⟨"p", RuleKind.inc⟩]
          "textarea" = true
      ∧ subtreesWithTag "textarea"
          (annotateNode [⟨"p", RuleKind.inc⟩, ⟨"textarea", RuleKind.exc⟩]
            (fun s => s) []
            (Node.element "div"
              [Node.element "textarea" [Node.text 1 "漢字"], Node.text 2 "外"]))
        = subtreesWithTag "textarea"
            (Node.element "div"
              [Node.element "textarea" [Node.text 1 "漢字"], Node.text 2 "外"]) :=
  ⟨List.Perm.swap _ _ _, by decide,
   claim_c2_exclusion
     [⟨"textarea", RuleKind.exc⟩, ⟨"p", RuleKind.inc⟩]
     [⟨"p", RuleKind.inc⟩, ⟨"textarea", RuleKind.exc⟩]
     (fun s => s) [] "textarea"
     (Node.element "div"
       [Node.element "textarea" [Node.text 1 "漢字"], Node.text 2 "外"])
     (List.Perm.swap _ _ _) (by decide)⟩

/-- Once the cancellation token is set, resolving results never changes
the engine state. -/
theorem resolveAll_cancelled (st : EngineState) (rs : List PendingResult)
    (hc : st.cancelled = true) : resolveAll st rs = st := by
  induction rs generalizing st with
  | nil => rfl
  | cons r rs ih =>
      simp only [resolveAll, List.foldl_cons]
      rw [show applyPending st r = st from by simp [applyPending, hc]]
      exact ih st hc

/-- C3: deactivating while N tokenizer requests are in flight produces
zero DOM mutations from those N requests once they resolve — the
cancellation token of the EngineState is set by `deactivate`, checked by
`applyPending` before any result is applied, and a cancelled result is
discarded even though the network call completed. -/
theorem claim_c3_cancellation (st : EngineState) (rs : List PendingResult) :
    (resolveAll (deactivate st) rs).dom = st.dom
      ∧ (deactivate st).cancelled = true := by
  have h := resolveAll_cancelled (deactivate st) rs rfl
  exact ⟨by rw [h]; rfl, rfl⟩

/-- A failing batch marks each of its spans failed, and no span of it
annotated. -/
theorem processBatch_failed {b : Batch} (hb : batchFailed b = true) :
    ∀ s ∈ b.spanIds,
      (s, SpanStatus.failed) ∈ processBatch b
        ∧ (s, SpanStatus.annotated) ∉ processBatch b := by
  intro s hs
  constructor
  · simp only [processBatch, hb, if_true]
    exact List.mem_map_of_mem _ hs
  · simp [processBatch, hb, List.mem_map]

/-- C4: every failing tokenizer batch (network error, non-2xx, malformed
JSON, or token count mismatch against the separator count) has all its
spans marked failed and skipped, while every succeeding batch of the same
run still gets its spans annotated — one failure does not block other
batches. -/
theorem claim_c4_batch_failure (bs : List Batch) (b : Batch)
    (hmem : b ∈ bs) (hfail : batchFailed b = true) :
    (∀ s ∈ b.spanIds,
        (s, SpanStatus.failed) ∈ processBatches bs
          ∧ (s, SpanStatus.annotated) ∉ processBatch b)
      ∧ ∀ b' ∈ bs, batchFailed b' = false →
          ∀ s' ∈ b'.spanIds, (s', SpanStatus.annotated) ∈ processBatches bs := by
  constructor
  · intro s hs
    refine ⟨?_, (processBatch_failed hfail s hs).2⟩
    exact List.mem_flatten.mpr
      ⟨processBatch b, List.mem_map_of_mem _ hmem,
       (processBatch_failed hfail s hs).1⟩
  · intro b' hb' hok s' hs'
    have h1 : (s', SpanStatus.annotated) ∈ processBatch b' := by
      simp only [processBatch, hok, Bool.false_eq_true, if_false]
      exact List.mem_map_of_mem _ hs'
    exact List.mem_flatten.mpr
      ⟨processBatch b', List.mem_map_of_mem _ hb', h1⟩

/-- Witness for C4: a run of two batches where the first fails with a
network error and the second succeeds with a matching token count. -/
theorem claim_c4_witness :
    (⟨[1, 2], BatchOutcome.netError⟩ : Batch)
        ∈ [(⟨[1, 2], BatchOutcome.netError⟩ : Batch),
           ⟨[3], BatchOutcome.response 200 (some [[⟨"今日", some "きょう", "noun"⟩]])⟩]
      ∧ batchFailed ⟨[1, 2], BatchOutcome.netError⟩ = true
      ∧ ((∀ s ∈ ([1, 2] : List Nat),
            (s, SpanStatus.failed)
                ∈ processBatches
                  [⟨[1, 2], BatchOutcome.netError⟩,
                   ⟨[3], BatchOutcome.response 200
                     (some [[⟨"今日", some "きょう", "noun"⟩]])⟩]
              ∧ (s, SpanStatus.annotated)
                  ∉ processBatch ⟨[1, 2], BatchOutcome.netError⟩)
          ∧ ∀ b' ∈ [(⟨[1, 2], BatchOutcome.netError⟩ : Batch),
               ⟨[3], BatchOutcome.response 200
                 (some [[⟨"今日", some "きょう", "noun"⟩]])⟩],
              batchFailed b' = false →
                ∀ s' ∈ b'.spanIds,
                  (s', SpanStatus.annotated)
                    ∈ processBatches
                      [⟨[1, 2], BatchOutcome.netError⟩,
                       ⟨[3], BatchOutcome.response 200
                         (some [[⟨"今日", some "きょう", "noun"⟩]])⟩]) :=
  ⟨by decide, by decide,
   claim_c4_batch_failure
     [⟨[1, 2], BatchOutcome.netError⟩,
      ⟨[3], BatchOutcome.response 200 (some [[⟨"今日", some "きょう", "noun"⟩]])⟩]
     ⟨[1, 2], BatchOutcome.netError⟩ (by decide) (by decide)⟩

/-- How `runContained` treats a successful step. -/
theorem runContained_ok {α : Type} (a : α)
    (rest : List (Except AnnotError α)) :
    runContained (Except.ok a :: rest)
      = ((a :: (runContained rest).1, (runContained rest).2)) := rfl

/-- How `runContained` treats a failing step. -/
theorem runContained_error {α : Type} (e : AnnotError)
    (rest : List (Except AnnotError α)) :
    runContained (Except.error e :: rest)
      = (((runContained rest).1, e :: (runContained rest).2)) := rfl

/-- C5: no error arising inside the annotation subsystem escapes the
containment boundary: `runContained` is a total function whose outputs
account for every step (successes plus logged warnings exhaust the
steps), and every error that occurred is surfaced in the warning list —
never as an uncaught failure. -/
theorem claim_c5_containment {α : Type} (steps : List (Except AnnotError α)) :
    (runContained steps).1.length + (runContained steps).2.length = steps.length
      ∧ ∀ e : AnnotError, Except.error e ∈ steps → e ∈ (runContained steps).2 := by
  induction steps with
  | nil => exact ⟨rfl, fun e he => absurd he (List.not_mem_nil _)⟩
  | cons s rest ih =>
      cases s with
      | ok a =>
          refine ⟨?_, fun e he => ?_⟩
          · have h1 := ih.1
            simp only [runContained_ok, List.length_cons]
            omega
          · rcases List.mem_cons.mp he with he | he
            · exact absurd he (by simp)
            · simpa only [runContained_ok] using ih.2 e he
      | error e0 =>
          refine ⟨?_, fun e he => ?_⟩
          · have h1 := ih.1
            simp only [runContained_error, List.length_cons]
            omega
          · rcases List.mem_cons.mp he with he | he
            · injection he with h2
              subst h2
              simp [runContained_error]
            · simp only [runContained_error]
              exact List.mem_cons.mpr (Or.inr (ih.2 e he))

/-- Witness for C5: a pass with one success and one network error — the
error shows up in the warning list. -/
theorem claim_c5_witness :
    Except.error AnnotError.netError
        ∈ [Except.ok (7 : Nat), Except.error AnnotError.netError]
      ∧ AnnotError.netError
          ∈ (runContained [Except.ok (7 : Nat), Except.error AnnotError.netError]).2 :=
  ⟨by simp,
   (claim_c5_containment [Except.ok (7 : Nat), Except.error AnnotError.netError]).2
     AnnotError.netError (by simp)⟩

/-- C6: for every input text `t`, the request the background handler
sends is a POST whose JSON body is exactly `{ text: t }`, and the
response is consumed as a JSON array of
`{ surface, reading, partOfSpeech }` tokens: decoding any well-formed
token array recovers exactly those tokens. -/
theorem claim_c6_http_boundary (t : String) :
    (tokenizerRequest t).method = "POST"
      ∧ (tokenizerRequest t).body = Json.jobj [("text", Json.jstr t)]
      ∧ ∀ toks : List MojiToken,
          decodeResponse (Json.jarr (toks.map encodeToken)) = some toks := by
  refine ⟨rfl, rfl, ?_⟩
  intro toks
  simp only [decodeResponse]
  induction toks with
  | nil => rfl
  | cons t0 ts ih =>
      simp only [List.map_cons, decodeTokenList,
        show decodeToken (encodeToken t0) = some t0 from by cases t0; rfl, ih]

mutual

/-- A second annotation pass over an already-annotated tree changes
nothing, for any registry that kept the entries of the first pass. -/
theorem annotate_annotate (rules : List SelectorRule) (rd : String → String)
    {reg reg' : List Nat} (hsub : ∀ a ∈ reg, a ∈ reg') :
    (n : Node) →
      annotateNode rules rd reg' (annotateNode rules rd reg n)
        = annotateNode rules rd reg n
  | .text id s => by
      simp only [annotateNode]
      by_cases h1 : id ∈ reg
      · simp only [if_pos h1, annotateNode, if_pos (hsub id h1)]
      · simp only [if_neg h1]
        by_cases h2 : hasKanji s = true
        · simp only [if_pos h2, annotateNode]
        · simp only [if_neg h2, annotateNode]
          by_cases h3 : id ∈ reg'
          · simp only [if_pos h3]
          · simp only [if_neg h3, if_neg h2]
  | .ruby id b r => by simp [annotateNode]
  | .element tag kids => by
      simp only [annotateNode]
      by_cases hex : excludedBy rules tag = true
      · simp only [if_pos hex, annotateNode]
      · simp only [if_neg hex, annotateNode, if_neg hex]
        rw [annotateKids_annotateKids rules rd hsub kids]

/-- List version of `annotate_annotate`. -/
theorem annotateKids_annotateKids (rules : List SelectorRule)
    (rd : String → String) {reg reg' : List Nat}
    (hsub : ∀ a ∈ reg, a ∈ reg') :
    (l : List Node) →
      annotateKids rules rd reg' (annotateKids rules rd reg l)
        = annotateKids rules rd reg l
  | [] => by simp [annotateKids]
  | k :: ks => by
      simp only [annotateKids]
      rw [annotate_annotate rules rd hsub k,
        annotateKids_annotateKids rules rd hsub ks]

end

mutual

/-- Re-extraction of an annotated tree yields no spans at all, for any
registry that kept the entries of the first pass. -/
theorem extract_annotate_empty (rules : List SelectorRule)
    (rd : String → String) {reg reg' : List Nat}
    (hsub : ∀ a ∈ reg, a ∈ reg') :
    (n : Node) →
      extractSpans rules reg' (annotateNode rules rd reg n) = []
  | .text id s => by
      simp only [annotateNode]
      by_cases h1 : id ∈ reg
      · simp only [if_pos h1, extractSpans, if_pos (hsub id h1)]
      · simp only [if_neg h1]
        by_cases h2 : hasKanji s = true
        · simp only [if_pos h2, extractSpans]
        · simp only [if_neg h2, extractSpans]
          by_cases h3 : id ∈ reg'
          · simp only [if_pos h3]
          · simp only [if_neg h3, if_neg h2, if_false]
  | .ruby id b r => by simp [annotateNode, extractSpans]
  | .element tag kids => by
      simp only [annotateNode]
      by_cases hex : excludedBy rules tag = true
      · simp only [if_pos hex, extractSpans]
      · simp only [if_neg hex, extractSpans]
        exact extractKids_annotate_empty rules rd hsub kids

/-- List version of `extract_annotate_empty`. -/
theorem extractKids_annotate_empty (rules : List SelectorRule)
    (rd : String → String) {reg reg' : List Nat}
    (hsub : ∀ a ∈ reg, a ∈ reg') :
    (l : List Node) →
      extractKids rules reg' (annotateKids rules rd reg l) = []
  | [] => by simp [annotateKids, extractKids]
  | k :: ks => by
      simp only [annotateKids, extractKids]
      rw [extract_annotate_empty rules rd hsub k,
        extractKids_annotate_empty rules rd hsub ks]
      rfl

end

/-- C7: annotating the same unchanged subtree twice produces the same DOM
structure as annotating it once (no duplicate ruby nesting), and
re-extracting the already-annotated subtree yields no spans, the nodes of
the ProcessedRegistry included — for any second-pass registry `reg'` that
kept the entries of the first-pass registry `reg`. -/
theorem claim_c7_idempotence (rules : List SelectorRule)
    (rd : String → String) (reg reg' : List Nat) (n : Node)
    (hsub : ∀ a ∈ reg, a ∈ reg') :
    annotateNode rules rd reg' (annotateNode rules rd reg n)
        = annotateNode rules rd reg n
      ∧ extractSpans rules reg' (annotateNode rules rd reg n) = [] :=
  ⟨annotate_annotate rules rd hsub n, extract_annotate_empty rules rd hsub n⟩

/-- Witness for C7: a paragraph with a registered kanji text node, a
fresh kanji text node and an engine-authored ruby node; after one pass
the second pass is the identity and extraction finds nothing. -/
theorem claim_c7_witness :
    (∀ a ∈ ([5] : List Nat), a ∈ ([5, 9] : List Nat))
      ∧ (annotateNode [] (fun _ => "よみ") [5, 9]
            (annotateNode [] (fun _ => "よみ") [5]
              (Node.element "p"
                [Node.text 5 "漢", Node.text 6 "字だ", Node.ruby 7 "日" "ひ"]))
          = annotateNode [] (fun _ => "よみ") [5]
              (Node.element "p"
                [Node.text 5 "漢", Node.text 6 "字だ", Node.ruby 7 "日" "ひ"])
        ∧ extractSpans [] [5, 9]
            (annotateNode [] (fun _ => "よみ") [5]
              (Node.element "p"
                [Node.text 5 "漢", Node.text 6 "字だ", Node.ruby 7 "日" "ひ"]))
          = []) :=
  ⟨by decide,
   claim_c7_idempotence [] (fun _ => "よみ") [5] [5, 9]
     (Node.element "p"
       [Node.text 5 "漢", Node.text 6 "字だ", Node.ruby 7 "日" "ひ"])
     (by decide)⟩

namespace Installer

/-- Reading back the key just written. -/
theorem getItem_setItem_self (st : Storage) (k : String) (v : JVal) :
    getItem (setItem st k v) k = some v := by
  induction st with
  | nil => simp [setItem, getItem]
  | cons kv rest ih =>
      obtain ⟨k0, v0⟩ := kv
      by_cases h : k0 = k
      · simp [setItem, getItem, h]
      · simp [setItem, getItem, h, ih]

/-- Writing one key leaves every other key unchanged. -/
theorem getItem_setItem_ne (st : Storage) {k k' : String} (v : JVal)
    (h : k ≠ k') : getItem (setItem st k v) k' = getItem st k' := by
  induction st with
  | nil => simp [setItem, getItem, h]
  | cons kv rest ih =>
      obtain ⟨k0, v0⟩ := kv
      by_cases h0 : k0 = k
      · subst h0
        simp [setItem, getItem, h]
      · by_cases h1 : k0 = k'
        · simp [setItem, getItem, h0, h1, Ne.symm h]
        · simp [setItem, getItem, h0, h1, ih]

/-- One config-loop turn only ever touches its own key. -/
theorem getItem_initStep_ne (st : Storage) (kv : String × JVal) (k : String)
    (h : kv.1 ≠ k) : getItem (initStep st kv) k = getItem st k := by
  unfold initStep
  split
  · rfl
  · exact getItem_setItem_ne st kv.2 h

/-- The config loop never touches the selector rules key. -/
theorem getItem_initConfig_rules (st : Storage) :
    getItem (List.foldl initStep st defaultConfig) selectorRulesKey
      = getItem st selectorRulesKey := by
  simp only [defaultConfig, List.foldl_cons, List.foldl_nil]
  rw [getItem_initStep_ne _ _ _ (by decide), getItem_initStep_ne _ _ _ (by decide),
    getItem_initStep_ne _ _ _ (by decide), getItem_initStep_ne _ _ _ (by decide),
    getItem_initStep_ne _ _ _ (by decide), getItem_initStep_ne _ _ _ (by decide),
    getItem_initStep_ne _ _ _ (by decide)]

/-- C8: when the stored selector rules are absent at installation, the
built-in defaults are written to storage by the onInstalled handler; and
at activation the loader falls back to the built-in default rule set when
the rules are absent or fail to parse. -/
theorem claim_c8_default_rules (st : Storage)
    (habsent : getItem st selectorRulesKey = none) :
    getItem (installHandler st) selectorRulesKey = some defaultSelectorRules
      ∧ loadRules StoredRules.absent = builtinDefaultRules
      ∧ loadRules StoredRules.malformed = builtinDefaultRules := by
  refine ⟨?_, rfl, rfl⟩
  have h1 : getItem (List.foldl initStep st defaultConfig) selectorRulesKey
      = none := by
    rw [getItem_initConfig_rules, habsent]
  simp only [installHandler]
  rw [h1]
  simp [truthy, getItem_setItem_self]

/-- Witness for C8: empty storage — after installation the rules key
holds the built-in defaults. -/
theorem claim_c8_witness :
    getItem ([] : Storage) selectorRulesKey = none
      ∧ (getItem (installHandler []) selectorRulesKey = some defaultSelectorRules
        ∧ loadRules StoredRules.absent = builtinDefaultRules
        ∧ loadRules StoredRules.malformed = builtinDefaultRules) :=
  ⟨rfl, claim_c8_default_rules [] rfl⟩

/-- C9 evaluation at the failing input: a stored `autoMode = false` (the
user turned auto mode off) is present in storage when the onInstalled
handler runs, yet the handler overwrites it with the default `true`,
because the guard `if (!oldConfig)` of the source tests JavaScript
falsiness instead of absence.  This contradicts the initialize-only
intent of the loop (its comment says it initializes default settings),
so the claim is right and the code is wrong. -/
theorem claim_c9_falsy_overwrite :
    getItem [("autoMode", JVal.jbool false)] "autoMode"
        = some (JVal.jbool false)
      ∧ getItem (installHandler [("autoMode", JVal.jbool false)]) "autoMode"
          = some (JVal.jbool true) := by
  decide

end Installer

/-- C10: for every popup action, the reducer returns its input state with
exactly the one configuration field named by the action set to the
payload — the record updates leave the other five fields untouched. -/
theorem claim_c10_reducer_frame (s : Popup.Config) (b1 b2 : Bool)
    (ft : Popup.FuriganaType) (sm : Popup.SelectMode) (n : Int) (c : String) :
    Popup.reducer s (Popup.ACTIONTYPE.toggleDisplay b1)
        = { s with display := b1 }
      ∧ Popup.reducer s (Popup.ACTIONTYPE.toggleHoverMode b2)
          = { s with hoverMode := b2 }
      ∧ Popup.reducer s (Popup.ACTIONTYPE.switchFuriganaType ft)
          = { s with furiganaType := ft }
      ∧ Popup.reducer s (Popup.ACTIONTYPE.switchSelectMode sm)
          = { s with selectMode := sm }
      ∧ Popup.reducer s (Popup.ACTIONTYPE.adjustFontSize n)
          = { s with fontSize := n }
      ∧ Popup.reducer s (Popup.ACTIONTYPE.adjustFontColor c)
          = { s with fontColor := c } :=
  ⟨rfl, rfl, rfl, rfl, rfl, rfl⟩

end FuriganaPlus
